import Mathlib

/-!
Verification of the SimpleMovieSync room-synchronization engine.

The definitions below shallowly embed the room/playback logic of
`src/server.js` (Socket.IO event handlers) and
`src/services/syncService.js` (the `SyncService` class).  Wall-clock
instants (`Date.now()`) are modelled as integers counting milliseconds,
passed explicitly to each handler; JavaScript numbers holding playback
positions are modelled as rationals.  The mutable `rooms` Map is modelled
as an association list `List (String × Room)` threaded through the
handlers, and every Socket.IO `emit` is modelled as an `Emission` value
collected in the handler's output list.
-/

set_option autoImplicit false

namespace SimpleMovieSync

/-- The playback anchor stored in `room.playbackState`:
`{ isPlaying, currentTime, lastUpdate: Date.now() }`.
`currentTime` is in seconds, `lastUpdate` in milliseconds. -/
structure PlaybackState where
  isPlaying : Bool
  currentTime : ℚ
  lastUpdate : ℤ
deriving Repr, DecidableEq

/-- A roster entry pushed by the `joinRoom` handler:
`{ id: socket.id, username, joinedAt }`. -/
structure Viewer where
  id : String
  username : String
  joinedAt : ℤ
deriving Repr, DecidableEq

/-- A chat record built by the `chatMessage` handler:
`{ id: uuidv4(), username: socket.username, message, timestamp }`.
`socket.username` is undefined until the socket joins a room, hence the
`Option`.  The uuid and timestamp are inputs to the handler model. -/
structure ChatMessage where
  id : String
  username : Option String
  message : String
  timestamp : ℤ
deriving Repr, DecidableEq

/-- A reaction record built by the `reaction` handler. -/
structure Reaction where
  id : String
  username : Option String
  emoji : String
  timestamp : ℤ
deriving Repr, DecidableEq

/-- A room as created by `POST /api/rooms` in `server.js`.  The `movie`
field of the source (a reference to the external media-catalog entry) is
kept opaque as its id `movieId`. -/
structure Room where
  id : String
  name : String
  movieId : String
  createdAt : ℤ
  viewers : List Viewer
  playbackState : PlaybackState
  chat : List ChatMessage
  reactions : List Reaction
deriving Repr, DecidableEq

/-- The server's `rooms` Map, as an insertion-ordered association list. -/
abbrev Rooms : Type := List (String × Room)

/-- `rooms.get(roomId)`. -/
def getRoom : Rooms → String → Option Room
  | [], _ => none
  | p :: t, roomId => if p.1 == roomId then some p.2 else getRoom t roomId

/-- Replacing the room stored under `roomId` (the in-place mutation of
the room object held by the Map). -/
def setRoom : Rooms → String → Room → Rooms
  | [], _, _ => []
  | p :: t, roomId, r =>
    (if p.1 == roomId then (p.1, r) else p) :: setRoom t roomId r

/-- Per-connection state the gateway keeps on the socket object:
`socket.id`, and the `socket.roomId` / `socket.username` properties the
`joinRoom` handler assigns (absent before the first join). -/
structure SocketState where
  sid : String
  roomId : Option String
  username : Option String
deriving Repr, DecidableEq

/-- Destination of a Socket.IO emit: `socket.emit` (the originator only),
`socket.to(roomId).emit` (every member of the room except the
originating socket), or `io.to(roomId).emit` (every member). -/
inductive Target where
  | originator : Target
  | roomExceptOriginator : String → Target
  | room : String → Target
deriving Repr, DecidableEq

/-- The connection ids a `Target` resolves to, given the room's roster
and the originating socket id; `socket.to(room)` excludes the sender. -/
def Target.recipients : Target → List Viewer → String → List String
  | .originator, _, sender => [sender]
  | .roomExceptOriginator _, viewers, sender =>
      List.map Viewer.id (List.filter (fun v => v.id != sender) viewers)
  | .room _, viewers, _ => List.map Viewer.id viewers

/-- One outbound Socket.IO message, with its event name and payload.
`roomState` carries the nested `room: {...room, viewerCount}` spread
(the whole `Room` value plus the count) alongside the dedicated
`playbackState`, `chat` (sliced) and `viewers` fields, exactly as
`server.js` builds the payload. -/
inductive Emission where
  | errorMsg : Target → String → Emission
  | roomState : Target → Room → ℕ → PlaybackState → List ChatMessage → List Viewer → Emission
  | viewerJoined : Target → Viewer → Emission
  | viewerLeft : Target → String → Option String → Emission
  | viewerCount : Target → ℕ → Emission
  | syncPlay : Target → ℚ → ℤ → Emission
  | syncPause : Target → ℚ → ℤ → Emission
  | syncSeek : Target → ℚ → ℤ → Emission
  | syncState : Target → Bool → ℚ → ℤ → Emission
  | newMessage : Target → ChatMessage → Emission
  | newReaction : Target → Reaction → Emission
  | syncHeartbeat : Target → Bool → ℚ → ℤ → Emission
deriving Repr, DecidableEq

/-- The position computation inlined both in the `requestSync` handler of
`server.js` and in `SyncService.getCurrentTime`:
start from `playbackState.currentTime` and, when playing, add
`(now - lastUpdate) / 1000` (milliseconds converted to seconds).
No clamping of any kind is performed. -/
def extrapolate (ps : PlaybackState) (now : ℤ) : ℚ :=
  let currentTime := ps.currentTime
  if ps.isPlaying then
    let elapsed := ((now : ℚ) - (ps.lastUpdate : ℚ)) / 1000
    currentTime + elapsed
  else
    currentTime

/-- JavaScript `list.slice(-n)`: the at-most-`n` last elements. -/
def takeLast {α : Type} (n : ℕ) (l : List α) : List α :=
  List.drop (l.length - n) l

/-- The body of the `chatMessage` handler's retention step: push the new
message, then `if (room.chat.length > 200) room.chat = room.chat.slice(-200)`. -/
def pushChat (chat : List ChatMessage) (m : ChatMessage) : List ChatMessage :=
  let c := chat ++ [m]
  if c.length > 200 then takeLast 200 c else c

/-- The default display name `Viewer ${socket.id.substring(0, 4)}`. -/
def defaultUsername (sid : String) : String :=
  "Viewer " ++ sid.take 4

/-- `username || default`: JavaScript treats both an absent and an empty
username as falsy. -/
def resolveUsername (sid : String) (username : Option String) : String :=
  match username with
  | none => defaultUsername sid
  | some u => if u = "" then defaultUsername sid else u

/-- The `joinRoom` handler (`server.js` lines 235-270).  On an unknown
room it emits `error {message: "Room not found"}` to the originator and
changes nothing.  Otherwise it records `socket.roomId` / `socket.username`,
appends the viewer to the roster, replies `roomState` to the joiner
(the nested room spread plus the playback state, the last 50 chat
messages and the roster), and notifies the room. -/
def handleJoinRoom (rooms : Rooms) (sock : SocketState) (roomId : String)
    (username : Option String) (now : ℤ) : Rooms × SocketState × List Emission :=
  match getRoom rooms roomId with
  | none => (rooms, sock, [Emission.errorMsg Target.originator "Room not found"])
  | some room =>
    let uname := resolveUsername sock.sid username
    let viewer : Viewer := ⟨sock.sid, uname, now⟩
    let room1 : Room := { room with viewers := room.viewers ++ [viewer] }
    (setRoom rooms roomId room1,
     { sock with roomId := some roomId, username := some uname },
     [Emission.roomState Target.originator room1 room1.viewers.length
        room1.playbackState (takeLast 50 room1.chat) room1.viewers,
      Emission.viewerJoined (Target.roomExceptOriginator roomId) viewer,
      Emission.viewerCount (Target.room roomId) room1.viewers.length])

/-- The `play` handler (`server.js` lines 278-290): unconditionally
overwrite all three anchor fields and broadcast `syncPlay` past the
originator.  An unknown room is silently ignored. -/
def handlePlay (rooms : Rooms) (roomId : String) (currentTime : ℚ) (now : ℤ) :
    Rooms × List Emission :=
  match getRoom rooms roomId with
  | none => (rooms, [])
  | some room =>
    let room1 : Room :=
      { room with playbackState := ⟨true, currentTime, now⟩ }
    (setRoom rooms roomId room1,
     [Emission.syncPlay (Target.roomExceptOriginator roomId) currentTime now])

/-- The `pause` handler (`server.js` lines 292-304). -/
def handlePause (rooms : Rooms) (roomId : String) (currentTime : ℚ) (now : ℤ) :
    Rooms × List Emission :=
  match getRoom rooms roomId with
  | none => (rooms, [])
  | some room =>
    let room1 : Room :=
      { room with playbackState := ⟨false, currentTime, now⟩ }
    (setRoom rooms roomId room1,
     [Emission.syncPause (Target.roomExceptOriginator roomId) currentTime now])

/-- The `seek` handler (`server.js` lines 306-317): `isPlaying` is kept,
`currentTime` and `lastUpdate` are replaced. -/
def handleSeek (rooms : Rooms) (roomId : String) (currentTime : ℚ) (now : ℤ) :
    Rooms × List Emission :=
  match getRoom rooms roomId with
  | none => (rooms, [])
  | some room =>
    let room1 : Room :=
      { room with playbackState :=
          ⟨room.playbackState.isPlaying, currentTime, now⟩ }
    (setRoom rooms roomId room1,
     [Emission.syncSeek (Target.roomExceptOriginator roomId) currentTime now])

/-- The `requestSync` handler (`server.js` lines 320-336): no state
change; reply `syncState` to the requester only, with the extrapolated
position. -/
def handleRequestSync (rooms : Rooms) (roomId : String) (now : ℤ) :
    Rooms × List Emission :=
  match getRoom rooms roomId with
  | none => (rooms, [])
  | some room =>
    (rooms,
     [Emission.syncState Target.originator room.playbackState.isPlaying
        (extrapolate room.playbackState now) now])

/-- The `chatMessage` handler (`server.js` lines 339-358): build the
record (message truncated to 500 units), append it, re-establish the
200-message bound, broadcast `newMessage` to the whole room.  The uuid
`mid` and timestamp `ts` are inputs of the model. -/
def handleChatMessage (rooms : Rooms) (sock : SocketState) (roomId : String)
    (text : String) (mid : String) (ts : ℤ) : Rooms × List Emission :=
  match getRoom rooms roomId with
  | none => (rooms, [])
  | some room =>
    let msg : ChatMessage := ⟨mid, sock.username, text.take 500, ts⟩
    let room1 : Room := { room with chat := pushChat room.chat msg }
    (setRoom rooms roomId room1,
     [Emission.newMessage (Target.room roomId) msg])

/-- The `reaction` handler (`server.js` lines 361-373): broadcast-only,
no state change. -/
def handleReaction (rooms : Rooms) (sock : SocketState) (roomId : String)
    (emoji : String) (mid : String) (ts : ℤ) : Rooms × List Emission :=
  match getRoom rooms roomId with
  | none => (rooms, [])
  | some _ =>
    (rooms,
     [Emission.newReaction (Target.room roomId) ⟨mid, sock.username, emoji, ts⟩])

/-- `handleLeaveRoom` (`server.js` lines 381-391), invoked by both the
`leaveRoom` event and `disconnect`.  If the socket has a recorded room,
the viewer is filtered out of the roster by socket id and the departure
broadcast; the socket's `roomId` property is never cleared by the
source, so the function leaves the socket state untouched. -/
def handleLeaveRoom (rooms : Rooms) (sock : SocketState) : Rooms × List Emission :=
  match sock.roomId with
  | none => (rooms, [])
  | some rid =>
    match getRoom rooms rid with
    | none => (rooms, [])
    | some room =>
      let room1 : Room :=
        { room with viewers := List.filter (fun v => v.id != sock.sid) room.viewers }
      (setRoom rooms rid room1,
       [Emission.viewerLeft (Target.roomExceptOriginator rid) sock.sid sock.username,
        Emission.viewerCount (Target.room rid) room1.viewers.length])

/-! The `SyncService` side (`src/services/syncService.js`). -/

/-- A room entry of `SyncService.rooms`. -/
structure SyncRoom where
  id : String
  playbackState : PlaybackState
  syncTolerance : ℚ
  lastSyncBroadcast : ℤ
deriving Repr, DecidableEq

/-- `SyncService.rooms`, again an insertion-ordered association list. -/
abbrev SyncRooms : Type := List (String × SyncRoom)

/-- `this.rooms.get(roomId)` in `SyncService`. -/
def findSyncRoom : SyncRooms → String → Option SyncRoom
  | [], _ => none
  | p :: t, roomId => if p.1 == roomId then some p.2 else findSyncRoom t roomId

/-- Replacement of the entry stored under `roomId`. -/
def setSyncRoom : SyncRooms → String → SyncRoom → SyncRooms
  | [], _, _ => []
  | p :: t, roomId, r =>
    (if p.1 == roomId then (p.1, r) else p) :: setSyncRoom t roomId r

/-- The partial playback state accepted by
`SyncService.updatePlaybackState`; absent fields keep their stored
values under the object spread. -/
structure StatePatch where
  isPlaying : Option Bool
  currentTime : Option ℚ
deriving Repr, DecidableEq

/-- The spread `{...room.playbackState, ...state, lastUpdate: Date.now()}`:
supplied fields override, `lastUpdate` is always refreshed to `now`. -/
def mergeState (ps : PlaybackState) (st : StatePatch) (now : ℤ) : PlaybackState :=
  { isPlaying := st.isPlaying.getD ps.isPlaying
    currentTime := st.currentTime.getD ps.currentTime
    lastUpdate := now }

/-- `SyncService.updatePlaybackState` (lines 270-279): merge
unconditionally — no staleness check of any kind; unknown rooms are
ignored. -/
def updatePlaybackState (rooms : SyncRooms) (roomId : String) (st : StatePatch)
    (now : ℤ) : SyncRooms :=
  match findSyncRoom rooms roomId with
  | none => rooms
  | some room =>
    setSyncRoom rooms roomId
      { room with playbackState := mergeState room.playbackState st now }

/-- `SyncService.getCurrentTime` (lines 281-293): `0` for an unknown
room, otherwise the extrapolated position. -/
def getCurrentTime (rooms : SyncRooms) (roomId : String) (now : ℤ) : ℚ :=
  match findSyncRoom rooms roomId with
  | none => 0
  | some room => extrapolate room.playbackState now

/-- `SyncService.getPlaybackState` (lines 295-304):
`{isPlaying, currentTime: getCurrentTime(roomId), serverTime}`. -/
def getPlaybackState (rooms : SyncRooms) (roomId : String) (now : ℤ) :
    Option (Bool × ℚ × ℤ) :=
  match findSyncRoom rooms roomId with
  | none => none
  | some room =>
    some (room.playbackState.isPlaying, getCurrentTime rooms roomId now, now)

/-- One tick of the 5-second interval installed by
`SyncService.startSyncBroadcasts` (lines 306-316): for every room whose
anchor is playing, emit `syncHeartbeat` with `getPlaybackState` to the
whole room; paused rooms produce nothing. -/
def syncTick (rooms : SyncRooms) (now : ℤ) : List Emission :=
  List.filterMap
    (fun p =>
      if p.2.playbackState.isPlaying then
        match getPlaybackState rooms p.1 now with
        | some (ip, ct, st) => some (Emission.syncHeartbeat (Target.room p.1) ip ct st)
        | none => none
      else none)
    rooms

/-- Projection of the chat list carried inside the nested
`room: {...room, viewerCount}` spread of a `roomState` reply, when the
emission list begins with one. -/
def roomStateNestedChat : List Emission → Option (List ChatMessage)
  | Emission.roomState _ r _ _ _ _ :: _ => some r.chat
  | _ => none

/-- Projection of the dedicated `chat` field of a `roomState` reply,
when the emission list begins with one. -/
def roomStateChatField : List Emission → Option (List ChatMessage)
  | Emission.roomState _ _ _ _ c _ :: _ => some c
  | _ => none

/-- A 51-message chat history. -/
def chat51 : List ChatMessage :=
  List.map (fun i => ⟨"x", none, "m", (i : ℤ)⟩) (List.range 51)

/-- A room that has accumulated 51 chat messages. -/
def room51 : Room :=
  ⟨"r", "n", "m", 0, [], ⟨false, 0, 0⟩, chat51, []⟩

/-! Helper lemmas about the registry and list operations. -/

theorem findSyncRoom_setSyncRoom {rooms : SyncRooms} {rid : String}
    {room : SyncRoom} (r : SyncRoom)
    (h : findSyncRoom rooms rid = some room) :
    findSyncRoom (setSyncRoom rooms rid r) rid = some r := by
  induction rooms with
  | nil => simp [findSyncRoom] at h
  | cons p t ih =>
    by_cases hb : (p.1 == rid) = true
    · simp [findSyncRoom, setSyncRoom, hb]
    · simp only [Bool.not_eq_true] at hb
      simp [findSyncRoom, setSyncRoom, hb] at h ⊢
      exact ih h

theorem getRoom_setRoom {rooms : Rooms} {rid : String} {room : Room} (r : Room)
    (h : getRoom rooms rid = some room) :
    getRoom (setRoom rooms rid r) rid = some r := by
  induction rooms with
  | nil => simp [getRoom] at h
  | cons p t ih =>
    by_cases hb : (p.1 == rid) = true
    · simp [getRoom, setRoom, hb]
    · simp only [Bool.not_eq_true] at hb
      simp [getRoom, setRoom, hb] at h ⊢
      exact ih h

theorem setRoom_setRoom (rooms : Rooms) (rid : String) (a b : Room) :
    setRoom (setRoom rooms rid a) rid b = setRoom rooms rid b := by
  induction rooms with
  | nil => rfl
  | cons p t ih =>
    by_cases hb : (p.1 == rid) = true
    · simp [setRoom, hb, ih]
    · simp only [Bool.not_eq_true] at hb
      simp [setRoom, hb, ih]

theorem length_takeLast {α : Type} (n : ℕ) (l : List α) :
    (takeLast n l).length = min n l.length := by
  simp [takeLast]
  omega

theorem takeLast_of_le {α : Type} {n : ℕ} {l : List α} (h : l.length ≤ n) :
    takeLast n l = l := by
  simp [takeLast, Nat.sub_eq_zero_of_le h]

theorem pushChat_eq_takeLast {chat : List ChatMessage} (m : ChatMessage)
    (h : chat.length ≤ 200) :
    pushChat chat m = takeLast 200 (chat ++ [m]) := by
  show (if (chat ++ [m]).length > 200 then takeLast 200 (chat ++ [m])
        else chat ++ [m]) = takeLast 200 (chat ++ [m])
  by_cases hlen : (chat ++ [m]).length > 200
  · rw [if_pos hlen]
  · rw [if_neg hlen, takeLast_of_le (by omega)]

theorem takeLast_append_left {α : Type} (k : ℕ) (l s : List α) :
    takeLast k (takeLast k l ++ s) = takeLast k (l ++ s) := by
  unfold takeLast
  rw [← List.drop_append_of_le_length (Nat.sub_le l.length k), List.drop_drop]
  congr 1
  simp [List.length_drop, List.length_append]
  omega

theorem foldl_pushChat (msgs : List ChatMessage) :
    ∀ chat : List ChatMessage, chat.length ≤ 200 →
      List.foldl pushChat chat msgs = takeLast 200 (chat ++ msgs) := by
  induction msgs with
  | nil =>
    intro chat h
    simp [takeLast_of_le h]
  | cons m ms ih =>
    intro chat h
    have h1 : (pushChat chat m).length ≤ 200 := by
      rw [pushChat_eq_takeLast m h]
      have := length_takeLast 200 (chat ++ [m])
      omega
    calc List.foldl pushChat chat (m :: ms)
        = List.foldl pushChat (pushChat chat m) ms := rfl
      _ = takeLast 200 (pushChat chat m ++ ms) := ih _ h1
      _ = takeLast 200 (takeLast 200 (chat ++ [m]) ++ ms) := by
            rw [pushChat_eq_takeLast m h]
      _ = takeLast 200 ((chat ++ [m]) ++ ms) := takeLast_append_left 200 _ _
      _ = takeLast 200 (chat ++ m :: ms) := by simp

theorem findSyncRoom_of_mem {rooms : SyncRooms} {p : String × SyncRoom}
    (hnd : (List.map Prod.fst rooms).Nodup) (hp : p ∈ rooms) :
    findSyncRoom rooms p.1 = some p.2 := by
  induction rooms with
  | nil => cases hp
  | cons q t ih =>
    have hnd' := hnd
    rw [List.map_cons, List.nodup_cons] at hnd'
    rcases List.mem_cons.mp hp with h | h
    · subst h
      simp [findSyncRoom]
    · have hq : (q.1 == p.1) = false := by
        apply beq_eq_false_iff_ne.mpr
        intro he
        have hmem : q.1 ∈ List.map Prod.fst t := by
          rw [he]
          exact List.mem_map.mpr ⟨p, h, rfl⟩
        exact hnd'.1 hmem
      have ht : findSyncRoom t p.1 = some p.2 := ih hnd'.2 h
      simpa [findSyncRoom, hq] using ht

/-! Claim theorems. -/

/-- C1: the clock-model extrapolation used by the `requestSync` handler
and `SyncService.getCurrentTime` matches the spec's reference
definition: for an anchor with `isPlaying = false` it returns the stored
position for every `now`; for an anchor with `isPlaying = true` and
`now ≥ lastUpdate` it returns the stored position plus the elapsed
milliseconds converted to seconds, monotonically non-decreasing in
`now`; and the `requestSync` reply to the requester carries exactly this
extrapolated value. -/
theorem extrapolate_matches_spec (ps : PlaybackState) (now now' : ℤ) :
    (ps.isPlaying = false → extrapolate ps now = ps.currentTime) ∧
    (ps.isPlaying = true → ps.lastUpdate ≤ now →
      extrapolate ps now =
        ps.currentTime + ((now : ℚ) - (ps.lastUpdate : ℚ)) / 1000) ∧
    (now ≤ now' → extrapolate ps now ≤ extrapolate ps now') ∧
    (∀ (rooms : Rooms) (rid : String) (room : Room),
      getRoom rooms rid = some room →
      (handleRequestSync rooms rid now).2 =
        [Emission.syncState Target.originator room.playbackState.isPlaying
          (extrapolate room.playbackState now) now]) := by
  refine ⟨?_, ?_, ?_, ?_⟩
  · intro h
    simp [extrapolate, h]
  · intro h _
    simp [extrapolate, h]
  · intro hnow
    have hc : (now : ℚ) ≤ (now' : ℚ) := Int.cast_le.mpr hnow
    by_cases hp : ps.isPlaying
    · simp only [extrapolate, hp, if_true]
      have h1 : ((now : ℚ) - (ps.lastUpdate : ℚ)) / 1000 ≤
          ((now' : ℚ) - (ps.lastUpdate : ℚ)) / 1000 := by linarith
      linarith
    · simp [extrapolate, hp]
  · intro rooms rid room h
    simp [handleRequestSync, h]

/-- C1 witness: the three parts of the contract and the `requestSync`
reply shape, evaluated at concrete anchors and a concrete one-room
registry. -/
theorem extrapolate_matches_spec_witness :
    extrapolate ⟨false, 7, 100⟩ 999 = 7 ∧
    extrapolate ⟨true, 7, 100⟩ 1100 =
      7 + ((1100 : ℚ) - ((100 : ℤ) : ℚ)) / 1000 ∧
    extrapolate ⟨true, 7, 100⟩ 1100 ≤ extrapolate ⟨true, 7, 100⟩ 2100 ∧
    (handleRequestSync [("r", ⟨"r", "n", "m", 0, [], ⟨true, 7, 100⟩, [], []⟩)]
        "r" 1100).2 =
      [Emission.syncState Target.originator true
        (extrapolate ⟨true, 7, 100⟩ 1100) 1100] := by
  refine ⟨(extrapolate_matches_spec ⟨false, 7, 100⟩ 999 999).1 rfl,
          (extrapolate_matches_spec ⟨true, 7, 100⟩ 1100 1100).2.1 rfl (by decide),
          (extrapolate_matches_spec ⟨true, 7, 100⟩ 1100 2100).2.2.1 (by decide),
          ?_⟩
  exact (extrapolate_matches_spec ⟨true, 7, 100⟩ 1100 1100).2.2.2
    [("r", ⟨"r", "n", "m", 0, [], ⟨true, 7, 100⟩, [], []⟩)] "r"
    ⟨"r", "n", "m", 0, [], ⟨true, 7, 100⟩, [], []⟩ (by decide)

/-- C2 counterexample: the extrapolation performs no clamping.  For the
playing anchor `{position: 0, lastUpdate: 1000}` evaluated at
`now = 0 < lastUpdate` it returns `-1`: a value below the anchor's
position, negative although the position is non-negative, and different
from the claimed `position + max(0, now - lastUpdate)`. -/
theorem extrapolate_no_clamp_counterexample :
    extrapolate ⟨true, 0, 1000⟩ 0 = -1 ∧
    extrapolate ⟨true, 0, 1000⟩ 0 < 0 ∧
    extrapolate ⟨true, 0, 1000⟩ 0 <
      (PlaybackState.mk true 0 1000).currentTime ∧
    extrapolate ⟨true, 0, 1000⟩ 0 ≠
      (PlaybackState.mk true 0 1000).currentTime +
        max 0 ((((0 : ℤ) : ℚ) - (((1000 : ℤ)) : ℚ)) / 1000) := by
  norm_num [extrapolate]

/-- C2 amended: for a playing anchor the extrapolation agrees with
`position + max(0, (now - lastUpdate)/1000)` only on the non-stale side
`now ≥ lastUpdate`, where it indeed never drops below the stored
position and is non-negative whenever the stored position is; for
`now < lastUpdate` the code applies the signed difference with no
clamping and can return values below the position (see the
counterexample). -/
theorem extrapolate_clamped_on_fresh (ps : PlaybackState) (now : ℤ)
    (hplay : ps.isPlaying = true) (hle : ps.lastUpdate ≤ now) :
    extrapolate ps now =
      ps.currentTime + max 0 (((now : ℚ) - (ps.lastUpdate : ℚ)) / 1000) ∧
    ps.currentTime ≤ extrapolate ps now ∧
    (0 ≤ ps.currentTime → 0 ≤ extrapolate ps now) := by
  have hc : (ps.lastUpdate : ℚ) ≤ (now : ℚ) := Int.cast_le.mpr hle
  have hnn : 0 ≤ ((now : ℚ) - (ps.lastUpdate : ℚ)) / 1000 := by
    apply div_nonneg
    · linarith
    · norm_num
  refine ⟨?_, ?_, ?_⟩
  · simp only [extrapolate, hplay, if_true]
    rw [max_eq_right hnn]
  · simp only [extrapolate, hplay, if_true]
    linarith
  · intro h0
    simp only [extrapolate, hplay, if_true]
    linarith

/-- C2 amended witness: the clamped form at a concrete fresh anchor. -/
theorem extrapolate_clamped_on_fresh_witness :
    extrapolate ⟨true, 10, 100⟩ 1100 =
      10 + max 0 ((((1100 : ℤ) : ℚ) - (((100 : ℤ)) : ℚ)) / 1000) ∧
    (10 : ℚ) ≤ extrapolate ⟨true, 10, 100⟩ 1100 ∧
    (0 : ℚ) ≤ extrapolate ⟨true, 10, 100⟩ 1100 := by
  refine ⟨(extrapolate_clamped_on_fresh ⟨true, 10, 100⟩ 1100 rfl (by decide)).1,
          (extrapolate_clamped_on_fresh ⟨true, 10, 100⟩ 1100 rfl (by decide)).2.1,
          (extrapolate_clamped_on_fresh ⟨true, 10, 100⟩ 1100 rfl (by decide)).2.2
            (by norm_num)⟩

/-- C3 counterexample: no staleness guard exists.  A room whose stored
anchor has `lastUpdate = 10` accepts a `play` carrying the earlier
timestamp `now = 3`: the stored anchor is overwritten with
`{isPlaying: true, currentTime: 5, lastUpdate: 3}` instead of being left
unchanged. -/
theorem stale_update_applied_counterexample :
    (3 : ℤ) < (PlaybackState.mk false 7 10).lastUpdate ∧
    getRoom (handlePlay [("r", ⟨"r", "n", "m", 0, [], ⟨false, 7, 10⟩, [], []⟩)]
        "r" 5 3).1 "r" =
      some ⟨"r", "n", "m", 0, [], ⟨true, 5, 3⟩, [], []⟩ ∧
    (PlaybackState.mk true 5 3) ≠ (PlaybackState.mk false 7 10) := by
  refine ⟨by decide, by decide, by decide⟩

/-- C3 amended: an anchor update whose timestamp `now` is strictly
earlier than the stored anchor's `lastUpdate` is NOT rejected: the
`play`, `pause` and `seek` handlers and `SyncService.updatePlaybackState`
all apply it unconditionally, overwriting the stored anchor with the
supplied values and setting `lastUpdate := now`, exactly as they do for
fresh timestamps. -/
theorem stale_update_applied (rooms : Rooms) (srooms : SyncRooms) (rid : String)
    (room : Room) (sroom : SyncRoom) (pos : ℚ) (st : StatePatch) (now : ℤ)
    (h : getRoom rooms rid = some room)
    (hs : findSyncRoom srooms rid = some sroom)
    (hstale : now < room.playbackState.lastUpdate)
    (hstale2 : now < sroom.playbackState.lastUpdate) :
    getRoom (handlePlay rooms rid pos now).1 rid =
      some { room with playbackState := ⟨true, pos, now⟩ } ∧
    getRoom (handlePause rooms rid pos now).1 rid =
      some { room with playbackState := ⟨false, pos, now⟩ } ∧
    getRoom (handleSeek rooms rid pos now).1 rid =
      some { room with playbackState :=
        ⟨room.playbackState.isPlaying, pos, now⟩ } ∧
    findSyncRoom (updatePlaybackState srooms rid st now) rid =
      some { sroom with playbackState := mergeState sroom.playbackState st now } := by
  refine ⟨?_, ?_, ?_, ?_⟩
  · have e1 : (handlePlay rooms rid pos now).1 =
        setRoom rooms rid { room with playbackState := ⟨true, pos, now⟩ } := by
      simp [handlePlay, h]
    rw [e1]
    exact getRoom_setRoom _ h
  · have e1 : (handlePause rooms rid pos now).1 =
        setRoom rooms rid { room with playbackState := ⟨false, pos, now⟩ } := by
      simp [handlePause, h]
    rw [e1]
    exact getRoom_setRoom _ h
  · have e1 : (handleSeek rooms rid pos now).1 =
        setRoom rooms rid { room with playbackState :=
          ⟨room.playbackState.isPlaying, pos, now⟩ } := by
      simp [handleSeek, h]
    rw [e1]
    exact getRoom_setRoom _ h
  · have e1 : updatePlaybackState srooms rid st now =
        setSyncRoom srooms rid
          { sroom with playbackState := mergeState sroom.playbackState st now } := by
      simp [updatePlaybackState, hs]
    rw [e1]
    exact findSyncRoom_setSyncRoom _ hs

/-- C3 amended witness: the four stale overwrites at concrete inputs. -/
theorem stale_update_applied_witness :
    getRoom (handlePlay [("r", ⟨"r", "n", "m", 0, [], ⟨false, 7, 10⟩, [], []⟩)]
        "r" 5 3).1 "r" =
      some ⟨"r", "n", "m", 0, [], ⟨true, 5, 3⟩, [], []⟩ ∧
    getRoom (handlePause [("r", ⟨"r", "n", "m", 0, [], ⟨false, 7, 10⟩, [], []⟩)]
        "r" 5 3).1 "r" =
      some ⟨"r", "n", "m", 0, [], ⟨false, 5, 3⟩, [], []⟩ ∧
    getRoom (handleSeek [("r", ⟨"r", "n", "m", 0, [], ⟨false, 7, 10⟩, [], []⟩)]
        "r" 5 3).1 "r" =
      some ⟨"r", "n", "m", 0, [], ⟨false, 5, 3⟩, [], []⟩ ∧
    findSyncRoom (updatePlaybackState [("r", ⟨"r", ⟨false, 7, 10⟩, 2, 0⟩)]
        "r" ⟨some true, some 5⟩ 3) "r" =
      some ⟨"r", ⟨true, 5, 3⟩, 2, 0⟩ := by
  exact stale_update_applied
    [("r", ⟨"r", "n", "m", 0, [], ⟨false, 7, 10⟩, [], []⟩)]
    [("r", ⟨"r", ⟨false, 7, 10⟩, 2, 0⟩)] "r"
    ⟨"r", "n", "m", 0, [], ⟨false, 7, 10⟩, [], []⟩
    ⟨"r", ⟨false, 7, 10⟩, 2, 0⟩ 5 ⟨some true, some 5⟩ 3
    (by decide) (by decide) (by decide) (by decide)

/-- C4: applying `play(position 0, t 0)`, `seek(position 50, t 1)`,
`pause(position 52, t 2)` to any existing room and then `requestSync` at
`t 3` replies to the requester exactly
`syncState {isPlaying: false, currentTime: 52, serverTime: 3}`. -/
theorem play_seek_pause_requestSync (rooms : Rooms) (rid : String) (room : Room)
    (h : getRoom rooms rid = some room) :
    (handleRequestSync
      (handlePause
        (handleSeek (handlePlay rooms rid 0 0).1 rid 50 1).1
        rid 52 2).1
      rid 3).2 =
      [Emission.syncState Target.originator false 52 3] := by
  have e1 : (handlePlay rooms rid 0 0).1 =
      setRoom rooms rid { room with playbackState := ⟨true, 0, 0⟩ } := by
    simp [handlePlay, h]
  have g1 : getRoom (handlePlay rooms rid 0 0).1 rid =
      some { room with playbackState := ⟨true, 0, 0⟩ } := by
    rw [e1]
    exact getRoom_setRoom _ h
  have e2 : (handleSeek (handlePlay rooms rid 0 0).1 rid 50 1).1 =
      setRoom (handlePlay rooms rid 0 0).1 rid
        { room with playbackState := ⟨true, 50, 1⟩ } := by
    simp [handleSeek, g1]
  have g2 : getRoom (handleSeek (handlePlay rooms rid 0 0).1 rid 50 1).1 rid =
      some { room with playbackState := ⟨true, 50, 1⟩ } := by
    rw [e2]
    exact getRoom_setRoom _ g1
  have e3 : (handlePause (handleSeek (handlePlay rooms rid 0 0).1 rid 50 1).1
      rid 52 2).1 =
      setRoom (handleSeek (handlePlay rooms rid 0 0).1 rid 50 1).1 rid
        { room with playbackState := ⟨false, 52, 2⟩ } := by
    simp [handlePause, g2]
  have g3 : getRoom (handlePause
      (handleSeek (handlePlay rooms rid 0 0).1 rid 50 1).1 rid 52 2).1 rid =
      some { room with playbackState := ⟨false, 52, 2⟩ } := by
    rw [e3]
    exact getRoom_setRoom _ g2
  simp [handleRequestSync, g3, extrapolate]

/-- C4 witness: the event sequence on a concrete one-room registry. -/
theorem play_seek_pause_requestSync_witness :
    (handleRequestSync
      (handlePause
        (handleSeek
          (handlePlay [("r", ⟨"r", "n", "m", 0, [], ⟨true, 9, 4⟩, [], []⟩)]
            "r" 0 0).1
          "r" 50 1).1
        "r" 52 2).1
      "r" 3).2 =
      [Emission.syncState Target.originator false 52 3] := by
  exact play_seek_pause_requestSync
    [("r", ⟨"r", "n", "m", 0, [], ⟨true, 9, 4⟩, [], []⟩)] "r"
    ⟨"r", "n", "m", 0, [], ⟨true, 9, 4⟩, [], []⟩ (by decide)

theorem filterMap_congr_mem {α β : Type} {f g : α → Option β} {l : List α}
    (h : ∀ a ∈ l, f a = g a) : List.filterMap f l = List.filterMap g l := by
  induction l with
  | nil => rfl
  | cons a t ih =>
    rw [List.filterMap_cons, List.filterMap_cons, h a (List.mem_cons_self a t),
        ih (fun b hb => h b (List.mem_cons_of_mem a hb))]

theorem filterMap_guard_eq {α β : Type} (cnd : α → Bool) (g : α → β) (l : List α) :
    List.filterMap (fun a => if cnd a then some (g a) else none) l =
      List.map g (List.filter cnd l) := by
  induction l with
  | nil => rfl
  | cons a t ih =>
    by_cases hc : cnd a
    · simp [List.filterMap_cons, List.filter_cons, hc, ih]
    · simp [List.filterMap_cons, List.filter_cons, hc, ih]

/-- C5: on a heartbeat tick over a registry with unique room ids (the
invariant of a JavaScript Map), exactly the playing rooms receive a
`syncHeartbeat` carrying the extrapolated position, in registry order; a
paused room receives no heartbeat whatsoever; and a room with anchor
`{isPlaying: true, position: 10, lastUpdate: T}` ticked at `T + 5000` ms
is broadcast `currentTime = 15`. -/
theorem heartbeat_tick_correct (rooms : SyncRooms) (now T : ℤ)
    (hnd : (List.map Prod.fst rooms).Nodup) :
    syncTick rooms now =
      List.map
        (fun p => Emission.syncHeartbeat (Target.room p.1)
          p.2.playbackState.isPlaying (extrapolate p.2.playbackState now) now)
        (List.filter (fun p => p.2.playbackState.isPlaying) rooms) ∧
    (∀ p ∈ rooms, p.2.playbackState.isPlaying = false →
      ∀ (b : Bool) (ct : ℚ) (st : ℤ),
        Emission.syncHeartbeat (Target.room p.1) b ct st ∉ syncTick rooms now) ∧
    syncTick [("r", ⟨"r", ⟨true, 10, T⟩, 2, T⟩)] (T + 5000) =
      [Emission.syncHeartbeat (Target.room "r") true 15 (T + 5000)] := by
  have hmain : syncTick rooms now =
      List.map
        (fun p => Emission.syncHeartbeat (Target.room p.1)
          p.2.playbackState.isPlaying (extrapolate p.2.playbackState now) now)
        (List.filter (fun p => p.2.playbackState.isPlaying) rooms) := by
    have hcong : syncTick rooms now =
        List.filterMap
          (fun p => if p.2.playbackState.isPlaying then
            some (Emission.syncHeartbeat (Target.room p.1)
              p.2.playbackState.isPlaying (extrapolate p.2.playbackState now) now)
            else none) rooms := by
      unfold syncTick
      apply filterMap_congr_mem
      intro p hp
      by_cases hply : p.2.playbackState.isPlaying
      · have hf := findSyncRoom_of_mem hnd hp
        simp [hply, getPlaybackState, getCurrentTime, hf]
      · simp [hply]
    rw [hcong, filterMap_guard_eq]
  refine ⟨hmain, ?_, ?_⟩
  · intro p hp hpaused b ct st hmem
    rw [hmain] at hmem
    rcases List.mem_map.mp hmem with ⟨q, hq, he⟩
    have hq' := List.mem_filter.mp hq
    simp only [Emission.syncHeartbeat.injEq, Target.room.injEq] at he
    have hqp : q = p := List.inj_on_of_nodup_map hnd hq'.1 hp he.1
    have hqplay : q.2.playbackState.isPlaying = true := by simpa using hq'.2
    rw [hqp, hpaused] at hqplay
    exact Bool.false_ne_true hqplay
  · have h5 : (((T + 5000 : ℤ) : ℚ) - ((T : ℤ) : ℚ)) / 1000 = 5 := by
      push_cast
      ring
    simp [syncTick, getPlaybackState, getCurrentTime, findSyncRoom,
      extrapolate, h5]
    norm_num

/-- C5 witness: a two-room registry (one playing room `a`, one paused
room `b`) ticked at 5000 ms, and the concrete anchor of the spec's
heartbeat example with `T = 7`. -/
theorem heartbeat_tick_correct_witness :
    syncTick [("a", ⟨"a", ⟨true, 10, 0⟩, 2, 0⟩),
              ("b", ⟨"b", ⟨false, 3, 0⟩, 2, 0⟩)] 5000 =
      List.map
        (fun p : String × SyncRoom => Emission.syncHeartbeat (Target.room p.1)
          p.2.playbackState.isPlaying (extrapolate p.2.playbackState 5000) 5000)
        (List.filter (fun p : String × SyncRoom => p.2.playbackState.isPlaying)
          ([("a", ⟨"a", ⟨true, 10, 0⟩, 2, 0⟩),
            ("b", ⟨"b", ⟨false, 3, 0⟩, 2, 0⟩)] : SyncRooms)) ∧
    Emission.syncHeartbeat (Target.room "b") false 3 5000 ∉
      syncTick [("a", ⟨"a", ⟨true, 10, 0⟩, 2, 0⟩),
                ("b", ⟨"b", ⟨false, 3, 0⟩, 2, 0⟩)] 5000 ∧
    syncTick [("r", ⟨"r", ⟨true, 10, 7⟩, 2, 7⟩)] (7 + 5000) =
      [Emission.syncHeartbeat (Target.room "r") true 15 (7 + 5000)] := by
  have h := heartbeat_tick_correct
    [("a", ⟨"a", ⟨true, 10, 0⟩, 2, 0⟩), ("b", ⟨"b", ⟨false, 3, 0⟩, 2, 0⟩)]
    5000 7 (by decide)
  exact ⟨h.1,
         h.2.1 ("b", ⟨"b", ⟨false, 3, 0⟩, 2, 0⟩) (by decide) rfl false 3 5000,
         h.2.2⟩

/-- C6: for an existing room, `play(roomId, position, now)` replaces the
whole anchor at once with `{isPlaying: true, currentTime: position,
lastUpdate: now}` (the registry update is a single atomic replacement of
the room value) and emits `syncPlay {currentTime: position, serverTime:
now}` addressed to the room minus the originating socket: the originator
is never among the recipients, while every other roster member is. -/
theorem play_broadcast (rooms : Rooms) (rid : String) (room : Room) (pos : ℚ)
    (now : ℤ) (h : getRoom rooms rid = some room) :
    handlePlay rooms rid pos now =
      (setRoom rooms rid { room with playbackState := ⟨true, pos, now⟩ },
       [Emission.syncPlay (Target.roomExceptOriginator rid) pos now]) ∧
    getRoom (handlePlay rooms rid pos now).1 rid =
      some { room with playbackState := ⟨true, pos, now⟩ } ∧
    (∀ sender : String,
      sender ∉ Target.recipients (Target.roomExceptOriginator rid)
        room.viewers sender) ∧
    (∀ sender : String, ∀ v ∈ room.viewers, v.id ≠ sender →
      v.id ∈ Target.recipients (Target.roomExceptOriginator rid)
        room.viewers sender) := by
  refine ⟨by simp [handlePlay, h], ?_, ?_, ?_⟩
  · have e1 : (handlePlay rooms rid pos now).1 =
        setRoom rooms rid { room with playbackState := ⟨true, pos, now⟩ } := by
      simp [handlePlay, h]
    rw [e1]
    exact getRoom_setRoom _ h
  · intro sender hmem
    rcases List.mem_map.mp hmem with ⟨v, hv, hid⟩
    have hvf := List.mem_filter.mp hv
    have hne : v.id ≠ sender := by simpa using hvf.2
    exact hne hid
  · intro sender v hv hne
    exact List.mem_map.mpr
      ⟨v, List.mem_filter.mpr ⟨hv, by simpa using hne⟩, rfl⟩

/-- C6 witness: a room with roster `s`, `t`; `s` plays at position 5,
time 9. -/
theorem play_broadcast_witness :
    handlePlay [("r", ⟨"r", "n", "m", 0, [⟨"s", "u", 0⟩, ⟨"t", "w", 0⟩],
        ⟨false, 0, 0⟩, [], []⟩)] "r" 5 9 =
      (setRoom [("r", ⟨"r", "n", "m", 0, [⟨"s", "u", 0⟩, ⟨"t", "w", 0⟩],
          ⟨false, 0, 0⟩, [], []⟩)] "r"
        ⟨"r", "n", "m", 0, [⟨"s", "u", 0⟩, ⟨"t", "w", 0⟩], ⟨true, 5, 9⟩, [], []⟩,
       [Emission.syncPlay (Target.roomExceptOriginator "r") 5 9]) ∧
    getRoom (handlePlay [("r", ⟨"r", "n", "m", 0, [⟨"s", "u", 0⟩, ⟨"t", "w", 0⟩],
        ⟨false, 0, 0⟩, [], []⟩)] "r" 5 9).1 "r" =
      some ⟨"r", "n", "m", 0, [⟨"s", "u", 0⟩, ⟨"t", "w", 0⟩],
        ⟨true, 5, 9⟩, [], []⟩ ∧
    "s" ∉ Target.recipients (Target.roomExceptOriginator "r")
      [⟨"s", "u", 0⟩, ⟨"t", "w", 0⟩] "s" ∧
    "t" ∈ Target.recipients (Target.roomExceptOriginator "r")
      [⟨"s", "u", 0⟩, ⟨"t", "w", 0⟩] "s" := by
  have h := play_broadcast
    [("r", ⟨"r", "n", "m", 0, [⟨"s", "u", 0⟩, ⟨"t", "w", 0⟩],
      ⟨false, 0, 0⟩, [], []⟩)] "r"
    ⟨"r", "n", "m", 0, [⟨"s", "u", 0⟩, ⟨"t", "w", 0⟩], ⟨false, 0, 0⟩, [], []⟩
    5 9 (by decide)
  exact ⟨h.1, h.2.1, h.2.2.1 "s",
         h.2.2.2 "s" ⟨"t", "w", 0⟩ (by decide) (by decide)⟩

/-- C7: leaving is idempotent.  Applying `handleLeaveRoom` twice for the
same socket leaves the registry (rosters and hence viewer counts)
exactly as a single application does — the roster filter removes nothing
the second time — and a leave by a socket that never joined (no recorded
`roomId`) is a complete no-op that raises nothing and emits nothing. -/
theorem leave_idempotent (rooms : Rooms) (sock : SocketState) :
    (handleLeaveRoom (handleLeaveRoom rooms sock).1 sock).1 =
      (handleLeaveRoom rooms sock).1 ∧
    (sock.roomId = none → handleLeaveRoom rooms sock = (rooms, [])) := by
  constructor
  · match hrid : sock.roomId with
    | none => simp [handleLeaveRoom, hrid]
    | some rid =>
      match hroom : getRoom rooms rid with
      | none => simp [handleLeaveRoom, hrid, hroom]
      | some room =>
        obtain ⟨room1, hroom1⟩ :
            ∃ r : Room, r = { room with viewers := List.filter (fun v => v.id != sock.sid) room.viewers } :=
          ⟨_, rfl⟩
        have e1 : (handleLeaveRoom rooms sock).1 = setRoom rooms rid room1 := by
          simp [handleLeaveRoom, hrid, hroom, hroom1]
        have g1 : getRoom (setRoom rooms rid room1) rid = some room1 :=
          getRoom_setRoom _ hroom
        have hfilter :
            List.filter (fun v => v.id != sock.sid) room1.viewers =
              room1.viewers := by
          rw [hroom1]
          show List.filter (fun v => v.id != sock.sid)
                 (List.filter (fun v => v.id != sock.sid) room.viewers) =
               List.filter (fun v => v.id != sock.sid) room.viewers
          rw [List.filter_filter]
          simp
        have e2 : (handleLeaveRoom (setRoom rooms rid room1) sock).1 =
            setRoom (setRoom rooms rid room1) rid
              { room1 with viewers := List.filter (fun v => v.id != sock.sid) room1.viewers } := by
          simp [handleLeaveRoom, hrid, g1]
        have hsame :
            { room1 with viewers := List.filter (fun v => v.id != sock.sid) room1.viewers } = room1 := by
          rw [hfilter]
        rw [e1, e2, hsame, setRoom_setRoom]
  · intro hnone
    simp [handleLeaveRoom, hnone]

/-- C7 witness: a joined socket leaving twice, and a socket with no
recorded room leaving once. -/
theorem leave_idempotent_witness :
    (handleLeaveRoom
      (handleLeaveRoom [("r", ⟨"r", "n", "m", 0, [⟨"s", "u", 0⟩, ⟨"t", "w", 0⟩],
          ⟨false, 0, 0⟩, [], []⟩)] ⟨"s", some "r", some "u"⟩).1
      ⟨"s", some "r", some "u"⟩).1 =
      (handleLeaveRoom [("r", ⟨"r", "n", "m", 0, [⟨"s", "u", 0⟩, ⟨"t", "w", 0⟩],
          ⟨false, 0, 0⟩, [], []⟩)] ⟨"s", some "r", some "u"⟩).1 ∧
    handleLeaveRoom [("r", ⟨"r", "n", "m", 0, [⟨"s", "u", 0⟩, ⟨"t", "w", 0⟩],
        ⟨false, 0, 0⟩, [], []⟩)] ⟨"z", none, none⟩ =
      ([("r", ⟨"r", "n", "m", 0, [⟨"s", "u", 0⟩, ⟨"t", "w", 0⟩],
          ⟨false, 0, 0⟩, [], []⟩)], []) := by
  exact ⟨(leave_idempotent
            [("r", ⟨"r", "n", "m", 0, [⟨"s", "u", 0⟩, ⟨"t", "w", 0⟩],
              ⟨false, 0, 0⟩, [], []⟩)] ⟨"s", some "r", some "u"⟩).1,
         (leave_idempotent
            [("r", ⟨"r", "n", "m", 0, [⟨"s", "u", 0⟩, ⟨"t", "w", 0⟩],
              ⟨false, 0, 0⟩, [], []⟩)] ⟨"z", none, none⟩).2 rfl⟩

/-- C8: chat history is bounded at 200.  Appending more than 200
messages to an initially empty room retains exactly the 200 most recent
messages in arrival order (the suffix of the appended sequence, oldest
dropped first); every single `pushChat` step re-establishes the bound;
and the `chatMessage` handler stores exactly `pushChat` of the room's
chat and the new record. -/
theorem chat_retention_bound :
    (∀ msgs : List ChatMessage, 200 < msgs.length →
      List.foldl pushChat [] msgs = List.drop (msgs.length - 200) msgs ∧
      (List.foldl pushChat [] msgs).length = 200) ∧
    (∀ (chat : List ChatMessage) (m : ChatMessage),
      (pushChat chat m).length ≤ 200) ∧
    (∀ (rooms : Rooms) (sock : SocketState) (rid text mid : String) (ts : ℤ)
      (room : Room), getRoom rooms rid = some room →
      getRoom (handleChatMessage rooms sock rid text mid ts).1 rid =
        some { room with chat := pushChat room.chat ⟨mid, sock.username, text.take 500, ts⟩ }) := by
  refine ⟨?_, ?_, ?_⟩
  · intro msgs hlen
    have h := foldl_pushChat msgs [] (by simp)
    rw [List.nil_append] at h
    refine ⟨by rw [h]; rfl, ?_⟩
    rw [h]
    show (List.drop (msgs.length - 200) msgs).length = 200
    rw [List.length_drop]
    omega
  · intro chat m
    show (if (chat ++ [m]).length > 200 then takeLast 200 (chat ++ [m])
          else chat ++ [m]).length ≤ 200
    by_cases hl : (chat ++ [m]).length > 200
    · rw [if_pos hl, length_takeLast]
      omega
    · rw [if_neg hl]
      omega
  · intro rooms sock rid text mid ts room h
    have e1 : (handleChatMessage rooms sock rid text mid ts).1 =
        setRoom rooms rid
          { room with chat := pushChat room.chat ⟨mid, sock.username, text.take 500, ts⟩ } := by
      simp [handleChatMessage, h]
    rw [e1]
    exact getRoom_setRoom _ h

/-- C8 witness: 201 appended messages leave the 200 most recent; one
push respects the bound; the handler stores the pushed chat. -/
theorem chat_retention_bound_witness :
    200 < (List.replicate 201 (⟨"x", none, "m", 0⟩ : ChatMessage)).length ∧
    List.foldl pushChat [] (List.replicate 201 (⟨"x", none, "m", 0⟩ : ChatMessage)) =
      List.drop ((List.replicate 201 (⟨"x", none, "m", 0⟩ : ChatMessage)).length - 200)
        (List.replicate 201 (⟨"x", none, "m", 0⟩ : ChatMessage)) ∧
    (List.foldl pushChat [] (List.replicate 201 (⟨"x", none, "m", 0⟩ : ChatMessage))).length = 200 ∧
    (pushChat [] ⟨"x", none, "m", 0⟩).length ≤ 200 ∧
    getRoom (handleChatMessage [("r", ⟨"r", "n", "m", 0, [], ⟨false, 0, 0⟩, [], []⟩)]
        ⟨"s", some "r", some "u"⟩ "r" "hello" "id1" 5).1 "r" =
      some ⟨"r", "n", "m", 0, [], ⟨false, 0, 0⟩,
        pushChat [] ⟨"id1", some "u", ("hello").take 500, 5⟩, []⟩ := by
  have hl : 200 < (List.replicate 201 (⟨"x", none, "m", 0⟩ : ChatMessage)).length := by
    rw [List.length_replicate]
    omega
  exact ⟨hl, (chat_retention_bound.1 _ hl).1, (chat_retention_bound.1 _ hl).2,
         chat_retention_bound.2.1 [] ⟨"x", none, "m", 0⟩,
         chat_retention_bound.2.2 [("r", ⟨"r", "n", "m", 0, [], ⟨false, 0, 0⟩, [], []⟩)]
           ⟨"s", some "r", some "u"⟩ "r" "hello" "id1" 5
           ⟨"r", "n", "m", 0, [], ⟨false, 0, 0⟩, [], []⟩ (by decide)⟩

/-- C9 counterexample: a `play` referencing a room id absent from the
registry produces no emission at all — in particular the originator does
NOT receive a "Room not found" notice (only `joinRoom` sends one). -/
theorem missing_room_no_notice_counterexample :
    getRoom ([] : Rooms) "r" = none ∧
    handlePlay ([] : Rooms) "r" 0 0 = (([] : Rooms), ([] : List Emission)) ∧
    Emission.errorMsg Target.originator "Room not found" ∉
      (handlePlay ([] : Rooms) "r" 0 0).2 := by
  refine ⟨rfl, rfl, by decide⟩

/-- C9 amended: for an unknown room id, only `joinRoom` answers the
originator with an explicit "Room not found" notice; `play`, `pause`,
`seek`, `requestSync`, `chatMessage` and `reaction` are silently
ignored.  In every case nothing is broadcast to anyone else, the
registry is unchanged, and each handler returns normally. -/
theorem missing_room_behavior (rooms : Rooms) (sock : SocketState) (rid : String)
    (uname : Option String) (pos : ℚ) (now : ℤ) (text emoji mid : String)
    (h : getRoom rooms rid = none) :
    handleJoinRoom rooms sock rid uname now =
      (rooms, sock, [Emission.errorMsg Target.originator "Room not found"]) ∧
    handlePlay rooms rid pos now = (rooms, []) ∧
    handlePause rooms rid pos now = (rooms, []) ∧
    handleSeek rooms rid pos now = (rooms, []) ∧
    handleRequestSync rooms rid now = (rooms, []) ∧
    handleChatMessage rooms sock rid text mid now = (rooms, []) ∧
    handleReaction rooms sock rid emoji mid now = (rooms, []) := by
  refine ⟨?_, ?_, ?_, ?_, ?_, ?_, ?_⟩ <;>
    simp [handleJoinRoom, handlePlay, handlePause, handleSeek,
      handleRequestSync, handleChatMessage, handleReaction, h]

/-- C9 amended witness: every handler on the empty registry. -/
theorem missing_room_behavior_witness :
    handleJoinRoom ([] : Rooms) ⟨"s", none, none⟩ "r" (some "u") 1 =
      (([] : Rooms), ⟨"s", none, none⟩,
       [Emission.errorMsg Target.originator "Room not found"]) ∧
    handlePlay ([] : Rooms) "r" 0 1 = (([] : Rooms), []) ∧
    handlePause ([] : Rooms) "r" 0 1 = (([] : Rooms), []) ∧
    handleSeek ([] : Rooms) "r" 0 1 = (([] : Rooms), []) ∧
    handleRequestSync ([] : Rooms) "r" 1 = (([] : Rooms), []) ∧
    handleChatMessage ([] : Rooms) ⟨"s", none, none⟩ "r" "hi" "i" 1 =
      (([] : Rooms), []) ∧
    handleReaction ([] : Rooms) ⟨"s", none, none⟩ "r" "fire" "i" 1 =
      (([] : Rooms), []) := by
  exact missing_room_behavior [] ⟨"s", none, none⟩ "r" (some "u") 0 1 "hi" "fire" "i" rfl

/-- C10 counterexample: the `roomState` reply to a joiner of a room
holding 51 retained messages does slice its dedicated `chat` field to
the last 50, but its nested `room: {...room, viewerCount}` spread still
carries the full 51-message retained history — so the joiner DOES
receive the full retained chat history. -/
theorem join_reply_nested_full_history_counterexample :
    room51.chat.length = 51 ∧
    50 < room51.chat.length ∧
    roomStateNestedChat
      (handleJoinRoom [("r", room51)] ⟨"s", none, none⟩ "r" (some "u") 9).2.2 =
      some room51.chat ∧
    roomStateChatField
      (handleJoinRoom [("r", room51)] ⟨"s", none, none⟩ "r" (some "u") 9).2.2 =
      some (takeLast 50 room51.chat) ∧
    (takeLast 50 room51.chat).length = 50 := by
  decide

/-- C10 amended: the dedicated `chat` field of the `roomState` reply
contains exactly the at-most-50 most recent retained messages (the tail
of the retained history), but the nested `room` object of the same reply
carries the full retained history, so a joiner still receives every
retained message. -/
theorem join_reply_chat_field_sliced (rooms : Rooms) (sock : SocketState)
    (rid : String) (uname : Option String) (now : ℤ) (room : Room)
    (h : getRoom rooms rid = some room) :
    roomStateChatField (handleJoinRoom rooms sock rid uname now).2.2 =
      some (takeLast 50 room.chat) ∧
    roomStateNestedChat (handleJoinRoom rooms sock rid uname now).2.2 =
      some room.chat ∧
    (takeLast 50 room.chat).length = min 50 room.chat.length := by
  refine ⟨?_, ?_, length_takeLast 50 room.chat⟩ <;>
    simp [handleJoinRoom, h, roomStateChatField, roomStateNestedChat]

/-- C10 amended witness: the 51-message room. -/
theorem join_reply_chat_field_sliced_witness :
    roomStateChatField
      (handleJoinRoom [("r", room51)] ⟨"s", none, none⟩ "r" (some "u") 9).2.2 =
      some (takeLast 50 room51.chat) ∧
    roomStateNestedChat
      (handleJoinRoom [("r", room51)] ⟨"s", none, none⟩ "r" (some "u") 9).2.2 =
      some room51.chat ∧
    (takeLast 50 room51.chat).length = min 50 room51.chat.length := by
  exact join_reply_chat_field_sliced [("r", room51)] ⟨"s", none, none⟩ "r"
    (some "u") 9 room51 (by decide)

end SimpleMovieSync
